import Mathlib

/-!
Shallow embedding of `src/static/git-arr.js` (browser-side helpers of the
git-arr static site generator): the relative-age formatter `how_long_ago`,
the per-element body of `replace_timestamps`, the display `toggle`, and the
table sorter `sortTable` with its module-level sort state.

JavaScript numbers are modelled as `JSNum`: either NaN or an exact rational.
This captures the semantics the claims are about (comparisons against NaN are
false, subtraction with NaN is NaN); rounding of IEEE doubles is out of scope.
-/

/-- A JavaScript number: NaN, or a (rational) numeric value. -/
inductive JSNum where
  | nan : JSNum
  | num : ℚ → JSNum
deriving DecidableEq

/-- JS `x < c` for a numeric literal `c`: false when `x` is NaN. -/
def jsLtQ : JSNum → ℚ → Bool
  | .nan, _ => false
  | .num q, c => decide (q < c)

/-- JS `x > c` for a numeric literal `c`: false when `x` is NaN. -/
def jsGtQ : JSNum → ℚ → Bool
  | .nan, _ => false
  | .num q, c => decide (c < q)

/-- JS subtraction: NaN-absorbing. -/
def jsSub : JSNum → JSNum → JSNum
  | .num a, .num b => .num (a - b)
  | _, _ => .nan

/-- JS division by a numeric literal: NaN-absorbing. -/
def jsDivC : JSNum → ℚ → JSNum
  | .nan, _ => .nan
  | .num q, c => .num (q / c)

/-- JS `Math.floor`: NaN-absorbing, otherwise the floor. -/
def jsFloor : JSNum → JSNum
  | .nan => .nan
  | .num q => .num ((⌊q⌋ : ℤ) : ℚ)

/-- Rendering of a (floored, hence integral) JS number into a string, as done
by `interval + " years ago"` etc.; only reached on integral values. -/
def jsIntStr : JSNum → String
  | .nan => "NaN"
  | .num q => toString q.num

/-- `how_long_ago(timestamp)` from git-arr.js, with the clock `now()` passed
explicitly as `nowv`.  Mirrors the source line by line:
`seconds = Math.floor(now() - timestamp)` followed by the cascade of
`interval = Math.floor(seconds / unit); if (interval > 1) ...` tests. -/
def how_long_ago (nowv : JSNum) (timestamp : JSNum) : String :=
  if jsLtQ timestamp 0 then "never"
  else
    let seconds := jsFloor (jsSub nowv timestamp)
    let interval1 := jsFloor (jsDivC seconds (365 * 24 * 60 * 60))
    if jsGtQ interval1 1 then jsIntStr interval1 ++ " years ago"
    else
      let interval2 := jsFloor (jsDivC seconds (30 * 24 * 60 * 60))
      if jsGtQ interval2 1 then jsIntStr interval2 ++ " months ago"
      else
        let interval3 := jsFloor (jsDivC seconds (24 * 60 * 60))
        if jsGtQ interval3 1 then jsIntStr interval3 ++ " days ago"
        else
          let interval4 := jsFloor (jsDivC seconds (60 * 60))
          if jsGtQ interval4 1 then jsIntStr interval4 ++ " hours ago"
          else
            let interval5 := jsFloor (jsDivC seconds 60)
            if jsGtQ interval5 1 then jsIntStr interval5 ++ " minutes ago"
            else
              if jsGtQ seconds 1 then jsIntStr (jsFloor seconds) ++ " seconds ago"
              else "about now"

/-- The cascade of the spec (section 4.2), stated over the integer
`seconds = floor(now() - t)`.  Integer division `/` on `ℤ` in Lean rounds
toward negative infinity for positive divisors, i.e. it is `floor` of the
real quotient, matching the spec's `floor(seconds / unit)`. -/
def spec_cascade (seconds : ℤ) : String :=
  if 1 < seconds / 31536000 then toString (seconds / 31536000) ++ " years ago"
  else if 1 < seconds / 2592000 then toString (seconds / 2592000) ++ " months ago"
  else if 1 < seconds / 86400 then toString (seconds / 86400) ++ " days ago"
  else if 1 < seconds / 3600 then toString (seconds / 3600) ++ " hours ago"
  else if 1 < seconds / 60 then toString (seconds / 60) ++ " minutes ago"
  else if 1 < seconds then toString seconds ++ " seconds ago"
  else "about now"

/-- `toggle(id)` from git-arr.js, restricted to its action on the element's
`style.display` string: `""` becomes `"none"`, `"none"` becomes `""`, and
any other display value is left alone. -/
def toggle (display : String) : String :=
  if display = "" then "none"
  else if display = "none" then ""
  else display

/-- A `span.age` element as `replace_timestamps` sees it: its text, its
inline display style, and its CSS class string. -/
structure AgeElement where
  innerHTML : String
  display : String
  className : String
deriving DecidableEq

/-- The loop body of `replace_timestamps()` for one element.  `timestamp` is
the numeric reading of the element's original `innerHTML` (NaN when it does
not parse), captured before the text is replaced, exactly as the source
captures `var timestamp = e.innerHTML` first. -/
def replace_timestamp_one (nowv : JSNum) (timestamp : JSNum) (e : AgeElement) : AgeElement :=
  let e1 : AgeElement :=
    { e with innerHTML := how_long_ago nowv timestamp, display := "inline" }
  if jsGtQ timestamp 0 then
    let age := jsSub nowv timestamp
    if jsLtQ age (2 * 60 * 60) then { e1 with className := e1.className ++ " age-band0" }
    else if jsLtQ age (3 * 24 * 60 * 60) then { e1 with className := e1.className ++ " age-band1" }
    else if jsLtQ age (30 * 24 * 60 * 60) then { e1 with className := e1.className ++ " age-band2" }
    else e1
  else e1

/-! The table sorter.  Strings coming from cell text are processed with
char-list versions of `trim()`, `toLowerCase()` and the lexicographic `<`
of JavaScript (code-unit comparison), defined below so that they are
executable by the kernel. -/

/-- The characters stripped by `String.prototype.trim`: the ECMAScript
WhiteSpace set (TAB, VT, FF, SP, NBSP, ZWNBSP and the Unicode
Space_Separator category) and the LineTerminator set (LF, CR, LS, PS). -/
def isJsSpace (c : Char) : Bool :=
  c == ' ' || c == '\t' || c == '\n' || c == '\r' || c == '\x0b' || c == '\x0c' ||
  c == '\u00A0' || c == '\u1680' || ('\u2000' ≤ c && c ≤ '\u200A') ||
  c == '\u2028' || c == '\u2029' || c == '\u202F' || c == '\u205F' ||
  c == '\u3000' || c == '\uFEFF'

/-- `s.trim()`: drop leading and trailing whitespace. -/
def jsTrim (s : String) : String :=
  ⟨((s.data.dropWhile isJsSpace).reverse.dropWhile isJsSpace).reverse⟩

/-- `toLowerCase()` on one character (ASCII letters; identity elsewhere). -/
def jsLowerChar (c : Char) : Char :=
  if 'A' ≤ c && c ≤ 'Z' then Char.ofNat (c.toNat + 32) else c

/-- `s.toLowerCase()`. -/
def jsToLower (s : String) : String :=
  ⟨s.data.map jsLowerChar⟩

/-- JS `<` on strings: lexicographic, by code unit. -/
def jsStrLtL : List Char → List Char → Bool
  | [], [] => false
  | [], _ :: _ => true
  | _ :: _, [] => false
  | a :: as, b :: bs => if a < b then true else if b < a then false else jsStrLtL as bs

/-- JS `<` on strings. -/
def jsStrLt (a b : String) : Bool := jsStrLtL a.data b.data

/-- JS `<` on numbers: false whenever either side is NaN. -/
def jsLtN : JSNum → JSNum → Bool
  | .num a, .num b => decide (a < b)
  | _, _ => false

/-- JS `>` on numbers: false whenever either side is NaN. -/
def jsGtN : JSNum → JSNum → Bool
  | .num a, .num b => decide (b < a)
  | _, _ => false

/-- A `<tr>` of the repos table: a node identity, the `textContent` of its
cells, and per cell the `parseFloat(span.age.getAttribute('data-timestamp'))`
reading (NaN when the span or the attribute is missing or unparseable). -/
structure Row where
  id : Nat
  cells : List String
  tsAttr : List JSNum
deriving DecidableEq

/-- `row.cells[columnIndex].textContent` (out-of-range reads as `""`). -/
def cellText (r : Row) (columnIndex : ℤ) : String :=
  if columnIndex < 0 then "" else r.cells.getD columnIndex.toNat ""

/-- The parsed `data-timestamp` of the `.age` span inside
`row.cells[columnIndex]` (missing reads as NaN). -/
def cellTs (r : Row) (columnIndex : ℤ) : JSNum :=
  if columnIndex < 0 then .nan else r.tsAttr.getD columnIndex.toNat .nan

/-- The string branch of the sort callback:
`cell.textContent.trim().toLowerCase()`. -/
def stringValue (r : Row) (columnIndex : ℤ) : String :=
  jsToLower (jsTrim (cellText r columnIndex))

/-- The three-way comparison of the sort callback on extracted string values:
`valueA > valueB` gives 1, `valueA < valueB` gives -1, else 0. -/
def strCompare (a b : String) : Int :=
  if jsStrLt b a then 1 else if jsStrLt a b then -1 else 0

/-- The three-way comparison on extracted numeric values. -/
def numCompare (a b : JSNum) : Int :=
  if jsGtN a b then 1 else if jsLtN a b then -1 else 0

/-- The sort callback's value extraction and comparison, per `dataType`. -/
def rowCompare (dataType : String) (columnIndex : ℤ) (a b : Row) : Int :=
  if dataType = "number" then numCompare (cellTs a columnIndex) (cellTs b columnIndex)
  else strCompare (stringValue a columnIndex) (stringValue b columnIndex)

/-- `return currentSortDirection === 'asc' ? comparison : -comparison`. -/
def dirCompare (direction : String) (cmp : Row → Row → Int) (a b : Row) : Int :=
  if direction = "asc" then cmp a b else -(cmp a b)

/-- The module-level sort state `currentSortColumn` / `currentSortDirection`. -/
structure SortState where
  currentSortColumn : ℤ
  currentSortDirection : String
deriving DecidableEq

/-- `var currentSortColumn = -1; var currentSortDirection = 'asc';` -/
def initialSortState : SortState :=
  { currentSortColumn := -1, currentSortDirection := "asc" }

/-- The direction-determination step at the top of `sortTable`. -/
def updateSortDirection (s : SortState) (columnIndex : ℤ) : SortState :=
  if s.currentSortColumn = columnIndex then
    { s with currentSortDirection :=
        if s.currentSortDirection = "asc" then "desc" else "asc" }
  else { currentSortColumn := columnIndex, currentSortDirection := "asc" }

/-- The table as `sortTable` sees it: the sort state plus the rows currently
under the `tbody`, in document order. -/
structure TableState where
  sort : SortState
  tbody : List Row
deriving DecidableEq

/-- `tbody.appendChild(row)` on an existing child: relocate it to the end. -/
def appendChildMove (t : List Row) (r : Row) : List Row := t.erase r ++ [r]

/-- `sortTable(columnIndex, dataType)`.  `Array.prototype.sort` is required
to be stable (ES2019); for the consistent comparators that arise here its
result is the unique stable sort, modelled by `List.insertionSort` over the
non-strict relation `comparator a b ≤ 0`.  The sorted array is then written
back by `rows.forEach(row => tbody.appendChild(row))`. -/
def sortTable (columnIndex : ℤ) (dataType : String) (st : TableState) : TableState :=
  let sort1 := updateSortDirection st.sort columnIndex
  let rows := List.insertionSort
    (fun a b => dirCompare sort1.currentSortDirection (rowCompare dataType columnIndex) a b ≤ 0)
    st.tbody
  { sort := sort1, tbody := rows.foldl appendChildMove st.tbody }

-- Helper lemmas used to relate `how_long_ago` on numeric inputs to the
-- integer cascade.

lemma jsFloor_jsDivC_intCast (s : ℤ) (k : ℕ) :
    jsFloor (jsDivC (.num ((s : ℤ) : ℚ)) (k : ℚ)) = .num (((s / (k : ℤ) : ℤ)) : ℚ) := by
  have h := Rat.floor_intCast_div_natCast s k
  simp only [jsDivC, jsFloor, JSNum.num.injEq]
  exact_mod_cast h

lemma jsGtQ_intCast (x : ℤ) : jsGtQ (.num ((x : ℤ) : ℚ)) 1 = decide (1 < x) := by
  simp only [jsGtQ]
  by_cases h : 1 < x
  · simp [h, show ((1 : ℚ) < (x : ℚ)) from by exact_mod_cast h]
  · simp only [decide_eq_false h, decide_eq_false_iff_not]
    exact_mod_cast h

lemma jsIntStr_intCast (x : ℤ) : jsIntStr (.num ((x : ℤ) : ℚ)) = toString x := by
  simp [jsIntStr, Rat.num_intCast]

lemma jsFloor_intCast (s : ℤ) : jsFloor (.num ((s : ℤ) : ℚ)) = .num ((s : ℤ) : ℚ) := by
  simp [jsFloor]

/-- C1: for every non-negative timestamp `t` (and clock value `n`),
`how_long_ago` is the strictly ordered first-match cascade over
`seconds = floor(n - t)`, each tier firing only when the interval is
strictly greater than 1 whole unit; in particular an age of exactly
86400 seconds yields `"24 hours ago"`, not a days string. -/
theorem how_long_ago_cascade_c1 (n t : ℚ) (ht : 0 ≤ t) :
    how_long_ago (.num n) (.num t) = spec_cascade ⌊n - t⌋ ∧
    how_long_ago (.num (t + 86400)) (.num t) = "24 hours ago" := by
  have key : ∀ m : ℚ, how_long_ago (.num m) (.num t) = spec_cascade ⌊m - t⌋ := by
    intro m
    have hlt : jsLtQ (.num t) 0 = false := by
      simp [jsLtQ, not_lt.mpr ht]
    have hsub : jsSub (.num m) (.num t) = .num (m - t) := rfl
    have hfl : jsFloor (.num (m - t)) = .num ((⌊m - t⌋ : ℤ) : ℚ) := rfl
    have d1 : ∀ s : ℤ, jsFloor (jsDivC (.num ((s : ℤ) : ℚ)) (365 * 24 * 60 * 60)) =
        .num (((s / 31536000 : ℤ)) : ℚ) := fun s => by
      have h := jsFloor_jsDivC_intCast s 31536000
      rw [show (365 * 24 * 60 * 60 : ℚ) = ((31536000 : ℕ) : ℚ) by norm_num]
      simpa using h
    have d2 : ∀ s : ℤ, jsFloor (jsDivC (.num ((s : ℤ) : ℚ)) (30 * 24 * 60 * 60)) =
        .num (((s / 2592000 : ℤ)) : ℚ) := fun s => by
      have h := jsFloor_jsDivC_intCast s 2592000
      rw [show (30 * 24 * 60 * 60 : ℚ) = ((2592000 : ℕ) : ℚ) by norm_num]
      simpa using h
    have d3 : ∀ s : ℤ, jsFloor (jsDivC (.num ((s : ℤ) : ℚ)) (24 * 60 * 60)) =
        .num (((s / 86400 : ℤ)) : ℚ) := fun s => by
      have h := jsFloor_jsDivC_intCast s 86400
      rw [show (24 * 60 * 60 : ℚ) = ((86400 : ℕ) : ℚ) by norm_num]
      simpa using h
    have d4 : ∀ s : ℤ, jsFloor (jsDivC (.num ((s : ℤ) : ℚ)) (60 * 60)) =
        .num (((s / 3600 : ℤ)) : ℚ) := fun s => by
      have h := jsFloor_jsDivC_intCast s 3600
      rw [show (60 * 60 : ℚ) = ((3600 : ℕ) : ℚ) by norm_num]
      simpa using h
    have d5 : ∀ s : ℤ, jsFloor (jsDivC (.num ((s : ℤ) : ℚ)) 60) =
        .num (((s / 60 : ℤ)) : ℚ) := fun s => by
      have h := jsFloor_jsDivC_intCast s 60
      rw [show (60 : ℚ) = ((60 : ℕ) : ℚ) by norm_num]
      simpa using h
    simp only [how_long_ago, hlt, Bool.false_eq_true, if_false, hsub, hfl]
    simp only [d1, d2, d3, d4, d5, jsGtQ_intCast, jsIntStr_intCast, jsFloor_intCast,
      decide_eq_true_eq, spec_cascade]
  refine ⟨key n, ?_⟩
  rw [key (t + 86400), show (t + 86400 - t : ℚ) = ((86400 : ℤ) : ℚ) by norm_num,
    Int.floor_intCast]
  decide

/-- Witness for C1 at concrete inputs: 97 seconds of age renders as seconds,
and an age of exactly 86400 seconds renders as hours. -/
theorem how_long_ago_cascade_c1_witness :
    how_long_ago (.num 100) (.num 3) = "97 seconds ago" ∧
    how_long_ago (.num 86403) (.num 3) = "24 hours ago" := by
  have h := how_long_ago_cascade_c1 100 3 (by norm_num)
  constructor
  · rw [h.1, show (100 - 3 : ℚ) = ((97 : ℤ) : ℚ) by norm_num, Int.floor_intCast]
    decide
  · rw [show (86403 : ℚ) = 3 + 86400 by norm_num]
    exact h.2

/-- C6: for every negative timestamp, `how_long_ago` returns `"never"`,
whatever the clock value is (even a NaN clock). -/
theorem how_long_ago_negative_c6 (nowv : JSNum) (t : ℚ) (ht : t < 0) :
    how_long_ago nowv (.num t) = "never" := by
  simp [how_long_ago, jsLtQ, ht]

/-- Witness for C6: timestamp -1 renders as `"never"` under a numeric clock
and under a NaN clock alike. -/
theorem how_long_ago_negative_c6_witness :
    how_long_ago (.num 12345) (.num (-1)) = "never" ∧
    how_long_ago .nan (.num (-1)) = "never" :=
  ⟨how_long_ago_negative_c6 (.num 12345) (-1) (by norm_num),
   how_long_ago_negative_c6 .nan (-1) (by norm_num)⟩

/-- C8: an unparseable timestamp (NaN) makes every tier comparison false, so
`how_long_ago` raises no error and lands in the default `"about now"` bucket. -/
theorem how_long_ago_nan_c8 (nowv : JSNum) :
    how_long_ago nowv .nan = "about now" := by
  cases nowv <;> rfl

/-- C5: `toggle` is its own inverse on the two handled display states `""`
and `"none"`, and leaves any other display state unchanged (once and twice). -/
theorem toggle_involutive_c5 (d : String) :
    toggle (toggle "") = "" ∧ toggle (toggle "none") = "none" ∧
    (d ≠ "" → d ≠ "none" → toggle d = d ∧ toggle (toggle d) = d) := by
  refine ⟨by rfl, by rfl, fun h1 h2 => ?_⟩
  have hd : toggle d = d := by
    rw [toggle, if_neg h1, if_neg h2]
  exact ⟨hd, by rw [hd, hd]⟩

/-- Witness for C5: the third display state `"inline"` is left unchanged by
one and by two toggles. -/
theorem toggle_involutive_c5_witness :
    toggle "inline" = "inline" ∧ toggle (toggle "inline") = "inline" :=
  (toggle_involutive_c5 "inline").2.2 (by decide) (by decide)

/-- C2: for a positive raw timestamp the element gains exactly one band class
determined by `age = now - t` (`age-band0` below 7200s, `age-band1` below
259200s, `age-band2` below 2592000s, nothing from 2592000s on), appended
after its pre-existing classes; for `t ≤ 0` no band class is appended. -/
theorem replace_timestamps_band_c2 (n t : ℚ) (e : AgeElement) :
    (0 < t →
      (n - t < 7200 →
        (replace_timestamp_one (.num n) (.num t) e).className = e.className ++ " age-band0") ∧
      (7200 ≤ n - t → n - t < 259200 →
        (replace_timestamp_one (.num n) (.num t) e).className = e.className ++ " age-band1") ∧
      (259200 ≤ n - t → n - t < 2592000 →
        (replace_timestamp_one (.num n) (.num t) e).className = e.className ++ " age-band2") ∧
      (2592000 ≤ n - t →
        (replace_timestamp_one (.num n) (.num t) e).className = e.className)) ∧
    (t ≤ 0 → (replace_timestamp_one (.num n) (.num t) e).className = e.className) := by
  have hsub : jsSub (.num n) (.num t) = .num (n - t) := rfl
  constructor
  · intro htpos
    have hgt : jsGtQ (.num t) 0 = true := by simp [jsGtQ, htpos]
    refine ⟨fun h0 => ?_, fun h1a h1b => ?_, fun h2a h2b => ?_, fun h3 => ?_⟩
    · have c0 : jsLtQ (.num (n - t)) (2 * 60 * 60) = true := by
        simp only [jsLtQ, decide_eq_true_eq]; linarith
      simp [replace_timestamp_one, hgt, hsub, c0]
    · have c0 : jsLtQ (.num (n - t)) (2 * 60 * 60) = false := by
        simp only [jsLtQ, decide_eq_false_iff_not, not_lt]; linarith
      have c1 : jsLtQ (.num (n - t)) (3 * 24 * 60 * 60) = true := by
        simp only [jsLtQ, decide_eq_true_eq]; linarith
      simp [replace_timestamp_one, hgt, hsub, c0, c1]
    · have c1 : jsLtQ (.num (n - t)) (3 * 24 * 60 * 60) = false := by
        simp only [jsLtQ, decide_eq_false_iff_not, not_lt]; linarith
      have c0 : jsLtQ (.num (n - t)) (2 * 60 * 60) = false := by
        simp only [jsLtQ, decide_eq_false_iff_not, not_lt]; linarith
      have c2 : jsLtQ (.num (n - t)) (30 * 24 * 60 * 60) = true := by
        simp only [jsLtQ, decide_eq_true_eq]; linarith
      simp [replace_timestamp_one, hgt, hsub, c0, c1, c2]
    · have c0 : jsLtQ (.num (n - t)) (2 * 60 * 60) = false := by
        simp only [jsLtQ, decide_eq_false_iff_not, not_lt]; linarith
      have c1 : jsLtQ (.num (n - t)) (3 * 24 * 60 * 60) = false := by
        simp only [jsLtQ, decide_eq_false_iff_not, not_lt]; linarith
      have c2 : jsLtQ (.num (n - t)) (30 * 24 * 60 * 60) = false := by
        simp only [jsLtQ, decide_eq_false_iff_not, not_lt]; linarith
      simp [replace_timestamp_one, hgt, hsub, c0, c1, c2]
  · intro htnonpos
    have hgt : jsGtQ (.num t) 0 = false := by
      simp [jsGtQ, not_lt.mpr htnonpos]
    simp [replace_timestamp_one, hgt]

/-- Witness for C2 at the claim's boundary ages 7199, 7200, 2591999 and
2592000 (timestamp 1, clocks 7200, 7201, 2592000, 2592001). -/
theorem replace_timestamps_band_c2_witness :
    (replace_timestamp_one (.num 7200) (.num 1) ⟨"t", "", "age"⟩).className = "age age-band0" ∧
    (replace_timestamp_one (.num 7201) (.num 1) ⟨"t", "", "age"⟩).className = "age age-band1" ∧
    (replace_timestamp_one (.num 2592000) (.num 1) ⟨"t", "", "age"⟩).className = "age age-band2" ∧
    (replace_timestamp_one (.num 2592001) (.num 1) ⟨"t", "", "age"⟩).className = "age" := by
  have h0 := (replace_timestamps_band_c2 7200 1 ⟨"t", "", "age"⟩).1 (by norm_num)
  have h1 := (replace_timestamps_band_c2 7201 1 ⟨"t", "", "age"⟩).1 (by norm_num)
  have h2 := (replace_timestamps_band_c2 2592000 1 ⟨"t", "", "age"⟩).1 (by norm_num)
  have h3 := (replace_timestamps_band_c2 2592001 1 ⟨"t", "", "age"⟩).1 (by norm_num)
  refine ⟨?_, ?_, ?_, ?_⟩
  · rw [h0.1 (by norm_num)]
    rfl
  · rw [h1.2.1 (by norm_num) (by norm_num)]
    rfl
  · rw [h2.2.2.1 (by norm_num) (by norm_num)]
    rfl
  · rw [h3.2.2.2 (by norm_num)]

-- Order facts about the lexicographic code-unit comparison `jsStrLtL`.

lemma jsStrLtL_irrefl : ∀ l : List Char, jsStrLtL l l = false
  | [] => rfl
  | a :: as => by simp [jsStrLtL, lt_irrefl, jsStrLtL_irrefl as]

lemma jsStrLtL_asymm : ∀ l₁ l₂ : List Char,
    jsStrLtL l₁ l₂ = true → jsStrLtL l₂ l₁ = false
  | [], [] => by simp [jsStrLtL]
  | [], _ :: _ => fun _ => rfl
  | _ :: _, [] => by simp [jsStrLtL]
  | a :: as, b :: bs => by
    by_cases hab : a < b
    · intro _
      simp only [jsStrLtL, if_neg (asymm hab), if_pos hab]
    · by_cases hba : b < a
      · simp [jsStrLtL, hab, hba]
      · intro h
        have heq : ¬ b < a := hba
        simp only [jsStrLtL, if_neg hab, if_neg hba] at h
        simp only [jsStrLtL, if_neg hba, if_neg hab]
        exact jsStrLtL_asymm as bs h

lemma jsStrLtL_eq_of_not_lt : ∀ l₁ l₂ : List Char,
    jsStrLtL l₁ l₂ = false → jsStrLtL l₂ l₁ = false → l₁ = l₂
  | [], [] => fun _ _ => rfl
  | [], _ :: _ => by simp [jsStrLtL]
  | _ :: _, [] => by simp [jsStrLtL]
  | a :: as, b :: bs => by
    intro h₁ h₂
    by_cases hab : a < b
    · simp [jsStrLtL, hab] at h₁
    · by_cases hba : b < a
      · simp [jsStrLtL, hba, hab] at h₂
      · have hEq : a = b := le_antisymm (not_lt.mp hba) (not_lt.mp hab)
        simp only [jsStrLtL, if_neg hab, if_neg hba] at h₁
        simp only [jsStrLtL, if_neg hba, if_neg hab] at h₂
        rw [hEq, jsStrLtL_eq_of_not_lt as bs h₁ h₂]

lemma jsStrLtL_trans : ∀ l₁ l₂ l₃ : List Char,
    jsStrLtL l₁ l₂ = true → jsStrLtL l₂ l₃ = true → jsStrLtL l₁ l₃ = true
  | [], x, [] => by cases x <;> simp [jsStrLtL]
  | [], _, _ :: _ => fun _ _ => rfl
  | _ :: _, [], _ => by simp [jsStrLtL]
  | _ :: _, _ :: _, [] => by simp [jsStrLtL]
  | a :: as, b :: bs, c :: cs => by
    intro h₁ h₂
    by_cases hab : a < b
    · by_cases hbc : b < c
      · simp [jsStrLtL, lt_trans hab hbc]
      · by_cases hcb : c < b
        · simp only [jsStrLtL, if_neg hbc, if_pos hcb] at h₂
          cases h₂
        · have : b = c := le_antisymm (not_lt.mp hcb) (not_lt.mp hbc)
          simp [jsStrLtL, this ▸ hab]
    · by_cases hba : b < a
      · simp only [jsStrLtL, if_neg hab, if_pos hba] at h₁
        cases h₁
      · have heq : a = b := le_antisymm (not_lt.mp hba) (not_lt.mp hab)
        subst heq
        by_cases hac : a < c
        · simp [jsStrLtL, hac]
        · by_cases hca : c < a
          · simp only [jsStrLtL, if_neg hac, if_pos hca] at h₂
            cases h₂
          · simp only [jsStrLtL, if_neg hab, if_neg hba] at h₁
            simp only [jsStrLtL, if_neg hac, if_neg hca] at h₂ ⊢
            exact jsStrLtL_trans as bs cs h₁ h₂

-- Stable insertion sort: sortedness with hypotheses relative to the list
-- being sorted (the comparators are only well behaved on the rows at hand),
-- uniqueness of sorted permutations, and the effect of the appendChild loop.

lemma pairwise_orderedInsert {α : Type} (r : α → α → Prop) [DecidableRel r] (a : α) :
    ∀ l : List α, l.Pairwise r →
      (∀ b ∈ l, r a b ∨ r b a) →
      (∀ y ∈ l, ∀ z ∈ l, r a y → r y z → r a z) →
      (List.orderedInsert r a l).Pairwise r
  | [], _, _, _ => by simp
  | b :: bs, hl, htot, htr => by
    rw [List.orderedInsert]
    by_cases hab : r a b
    · rw [if_pos hab]
      refine List.Pairwise.cons (fun c hc => ?_) hl
      rcases List.mem_cons.mp hc with rfl | hcbs
      · exact hab
      · exact htr b (List.mem_cons_self b bs) c (List.mem_cons_of_mem b hcbs) hab
          ((List.pairwise_cons.mp hl).1 c hcbs)
    · rw [if_neg hab]
      have hba : r b a := (htot b (List.mem_cons_self b bs)).resolve_left hab
      refine List.Pairwise.cons (fun c hc => ?_) ?_
      · rcases (List.mem_orderedInsert r).mp hc with rfl | hcbs
        · exact hba
        · exact (List.pairwise_cons.mp hl).1 c hcbs
      · exact pairwise_orderedInsert r a bs (List.pairwise_cons.mp hl).2
          (fun x hx => htot x (List.mem_cons_of_mem b hx))
          (fun y hy z hz => htr y (List.mem_cons_of_mem b hy) z (List.mem_cons_of_mem b hz))

lemma pairwise_insertionSort {α : Type} (r : α → α → Prop) [DecidableRel r] :
    ∀ l : List α,
      (∀ a ∈ l, ∀ b ∈ l, r a b ∨ r b a) →
      (∀ x ∈ l, ∀ y ∈ l, ∀ z ∈ l, r x y → r y z → r x z) →
      (List.insertionSort r l).Pairwise r
  | [], _, _ => by simp
  | a :: as, htot, htr => by
    rw [List.insertionSort]
    have hmem : ∀ x ∈ List.insertionSort r as, x ∈ as :=
      fun x hx => (List.perm_insertionSort r as).mem_iff.mp hx
    apply pairwise_orderedInsert
    · exact pairwise_insertionSort r as
        (fun x hx y hy => htot x (List.mem_cons_of_mem a hx) y (List.mem_cons_of_mem a hy))
        (fun x hx y hy z hz => htr x (List.mem_cons_of_mem a hx) y (List.mem_cons_of_mem a hy)
          z (List.mem_cons_of_mem a hz))
    · exact fun b hb => htot a (List.mem_cons_self a as) b (List.mem_cons_of_mem a (hmem b hb))
    · exact fun y hy z hz => htr a (List.mem_cons_self a as) y (List.mem_cons_of_mem a (hmem y hy))
        z (List.mem_cons_of_mem a (hmem z hz))

lemma sorted_perm_eq {α : Type} (r : α → α → Prop) :
    ∀ (l₁ l₂ : List α), l₁.Perm l₂ → l₁.Pairwise r → l₂.Pairwise r →
      (∀ a ∈ l₁, ∀ b ∈ l₁, r a b → r b a → a = b) → l₁ = l₂
  | [], l₂, hp, _, _, _ => (List.Perm.eq_nil hp.symm).symm
  | a :: t₁, l₂, hp, hs₁, hs₂, hanti => by
    cases l₂ with
    | nil => cases List.Perm.eq_nil hp
    | cons b t₂ =>
      by_cases hab : a = b
      · subst hab
        have ht : t₁.Perm t₂ := hp.cons_inv
        have := sorted_perm_eq r t₁ t₂ ht (List.pairwise_cons.mp hs₁).2
          (List.pairwise_cons.mp hs₂).2
          (fun x hx y hy => hanti x (List.mem_cons_of_mem a hx) y (List.mem_cons_of_mem a hy))
        rw [this]
      · exfalso
        have hb1 : b ∈ a :: t₁ := hp.symm.subset (List.mem_cons_self b t₂)
        have hb1t : b ∈ t₁ := by
          rcases List.mem_cons.mp hb1 with h | h
          · exact absurd h.symm hab
          · exact h
        have ha2 : a ∈ b :: t₂ := hp.subset (List.mem_cons_self a t₁)
        have ha2t : a ∈ t₂ := by
          rcases List.mem_cons.mp ha2 with h | h
          · exact absurd h hab
          · exact h
        have hrab : r a b := (List.pairwise_cons.mp hs₁).1 b hb1t
        have hrba : r b a := (List.pairwise_cons.mp hs₂).1 a ha2t
        exact hab (hanti a (List.mem_cons_self a t₁) b (List.mem_cons_of_mem a hb1t) hrab hrba)

lemma foldl_erase_append : ∀ (rs : List Row) (x : List Row) (r : Row), r ∉ rs →
    List.foldl List.erase (x ++ [r]) rs = List.foldl List.erase x rs ++ [r]
  | [], x, r, _ => by simp
  | s :: ss, x, r, hr => by
    have hsr : s ≠ r := fun h => hr (h ▸ List.mem_cons_self s ss)
    have hstep : (x ++ [r]).erase s = x.erase s ++ [r] := by
      by_cases hsx : s ∈ x
      · exact List.erase_append_left _ hsx
      · rw [List.erase_append_right _ hsx, List.erase_of_not_mem (by simp [hsr]),
          List.erase_of_not_mem hsx]
    rw [List.foldl_cons, List.foldl_cons, hstep]
    exact foldl_erase_append ss (x.erase s) r (fun h => hr (List.mem_cons_of_mem s h))

lemma foldl_appendChildMove_eq : ∀ (l t : List Row), l.Nodup →
    List.foldl appendChildMove t l = List.foldl List.erase t l ++ l
  | [], t, _ => by simp
  | r :: rs, t, hnd => by
    rw [List.foldl_cons, List.foldl_cons,
      show appendChildMove t r = t.erase r ++ [r] from rfl,
      foldl_appendChildMove_eq rs (t.erase r ++ [r]) (List.nodup_cons.mp hnd).2,
      foldl_erase_append rs (t.erase r) r (List.nodup_cons.mp hnd).1]
    simp

lemma foldl_erase_of_perm : ∀ (l t : List Row), l.Perm t → List.foldl List.erase t l = []
  | [], t, h => by
    have ht : t = [] := List.Perm.eq_nil h.symm
    subst ht
    rfl
  | r :: rs, t, h => by
    have hrt : r ∈ t := h.subset (List.mem_cons_self r rs)
    have hperm : rs.Perm (t.erase r) := (h.trans (List.perm_cons_erase hrt)).cons_inv
    rw [List.foldl_cons]
    exact foldl_erase_of_perm rs (t.erase r) hperm

lemma foldl_appendChildMove_of_perm (l t : List Row) (h : l.Perm t) (hnd : l.Nodup) :
    List.foldl appendChildMove t l = l := by
  rw [foldl_appendChildMove_eq l t hnd, foldl_erase_of_perm l t h, List.nil_append]

lemma foldl_insertionSort_eq (r : Row → Row → Prop) [DecidableRel r] (t : List Row)
    (hnd : t.Nodup) :
    List.foldl appendChildMove t (List.insertionSort r t) = List.insertionSort r t :=
  foldl_appendChildMove_of_perm _ t (List.perm_insertionSort r t)
    ((List.Perm.nodup_iff (List.perm_insertionSort r t)).mpr hnd)

/-- C3: the direction policy of `sortTable`: clicking the remembered column
flips asc and desc and keeps the column; clicking a different column resets
the direction to ascending and remembers the new column. -/
theorem sort_direction_toggle_c3 (s : SortState) (ci : ℤ) :
    (s.currentSortColumn = ci →
      (updateSortDirection s ci).currentSortColumn = s.currentSortColumn ∧
      (s.currentSortDirection = "asc" →
        (updateSortDirection s ci).currentSortDirection = "desc") ∧
      (s.currentSortDirection = "desc" →
        (updateSortDirection s ci).currentSortDirection = "asc")) ∧
    (s.currentSortColumn ≠ ci →
      (updateSortDirection s ci).currentSortDirection = "asc" ∧
      (updateSortDirection s ci).currentSortColumn = ci) := by
  constructor
  · intro h
    refine ⟨by simp [updateSortDirection, h], fun ha => ?_, fun hd => ?_⟩
    · simp [updateSortDirection, h, ha]
    · simp [updateSortDirection, h, hd]
  · intro h
    constructor <;> simp [updateSortDirection, h]

/-- Witness for C3: flip on the remembered column 2 (both directions), reset
to ascending on a fresh column 3. -/
theorem sort_direction_toggle_c3_witness :
    (updateSortDirection ⟨2, "asc"⟩ 2).currentSortColumn = 2 ∧
    (updateSortDirection ⟨2, "asc"⟩ 2).currentSortDirection = "desc" ∧
    (updateSortDirection ⟨2, "desc"⟩ 2).currentSortDirection = "asc" ∧
    (updateSortDirection ⟨7, "desc"⟩ 3).currentSortDirection = "asc" ∧
    (updateSortDirection ⟨7, "desc"⟩ 3).currentSortColumn = 3 :=
  ⟨((sort_direction_toggle_c3 ⟨2, "asc"⟩ 2).1 rfl).1,
   ((sort_direction_toggle_c3 ⟨2, "asc"⟩ 2).1 rfl).2.1 rfl,
   ((sort_direction_toggle_c3 ⟨2, "desc"⟩ 2).1 rfl).2.2 rfl,
   ((sort_direction_toggle_c3 ⟨7, "desc"⟩ 3).2 (by decide)).1,
   ((sort_direction_toggle_c3 ⟨7, "desc"⟩ 3).2 (by decide)).2⟩

/-- C10: in the initial state (column -1, direction asc) a call with
columnIndex -1 takes the same-column branch: the direction flips to desc and
the remembered column stays -1. -/
theorem sortTable_column_minus_one_c10 :
    updateSortDirection initialSortState (-1) =
      { currentSortColumn := -1, currentSortDirection := "desc" } ∧
    (sortTable (-1) "string" { sort := initialSortState, tbody := [] }).sort =
      { currentSortColumn := -1, currentSortDirection := "desc" } := by
  constructor <;> rfl

/-- C9: the string-mode comparator of `sortTable` compares cells through
`trim().toLowerCase()`, so two cell texts that differ only in letter case
and/or surrounding whitespace compare as 0 (before direction negation). -/
theorem string_compare_trim_lower_c9 (dt : String) (ci : ℤ) (a b : Row)
    (hdt : dt ≠ "number")
    (h : jsToLower (jsTrim (cellText a ci)) = jsToLower (jsTrim (cellText b ci))) :
    rowCompare dt ci a b = 0 := by
  unfold rowCompare stringValue
  rw [if_neg hdt, h]
  unfold strCompare jsStrLt
  simp [jsStrLtL_irrefl]

/-- Witness for C9: `"  Beta "` and `"beta"` compare as 0 in string mode. -/
theorem string_compare_trim_lower_c9_witness :
    rowCompare "string" 0 ⟨0, ["  Beta "], []⟩ ⟨1, ["beta"], []⟩ = 0 :=
  string_compare_trim_lower_c9 "string" 0 ⟨0, ["  Beta "], []⟩ ⟨1, ["beta"], []⟩
    (by decide) (by decide)

/-- C7: every call of `sortTable` reorders the `tbody` into a permutation of
the same row nodes (rows are relocated by `appendChild`, never duplicated or
dropped). -/
theorem sortTable_perm_c7 (ci : ℤ) (dt : String) (st : TableState)
    (hnd : st.tbody.Nodup) :
    (sortTable ci dt st).tbody.Perm st.tbody := by
  unfold sortTable
  have hperm := List.perm_insertionSort
    (fun a b => dirCompare (updateSortDirection st.sort ci).currentSortDirection
      (rowCompare dt ci) a b ≤ 0) st.tbody
  have heq := foldl_insertionSort_eq
    (fun a b => dirCompare (updateSortDirection st.sort ci).currentSortDirection
      (rowCompare dt ci) a b ≤ 0) st.tbody hnd
  simpa [heq] using hperm

/-- Witness for C7 on a concrete two-row table. -/
theorem sortTable_perm_c7_witness :
    (sortTable 0 "string"
      ⟨initialSortState, [⟨0, ["b"], []⟩, ⟨1, ["a"], []⟩]⟩).tbody.Perm
      [⟨0, ["b"], []⟩, ⟨1, ["a"], []⟩] :=
  sortTable_perm_c7 0 "string" ⟨initialSortState, [⟨0, ["b"], []⟩, ⟨1, ["a"], []⟩]⟩
    (by decide)

lemma jsStrLtL_not_lt_trans (l₁ l₂ l₃ : List Char) (h1 : jsStrLtL l₂ l₁ = false)
    (h2 : jsStrLtL l₃ l₂ = false) : jsStrLtL l₃ l₁ = false := by
  cases hb : jsStrLtL l₃ l₁ with
  | false => rfl
  | true =>
    exfalso
    by_cases hbc : jsStrLtL l₂ l₃ = true
    · exact absurd (jsStrLtL_trans l₂ l₃ l₁ hbc hb) (by simp [h1])
    · have h23 : l₂ = l₃ := jsStrLtL_eq_of_not_lt l₂ l₃ (by simpa using hbc) h2
      rw [← h23] at hb
      exact absurd hb (by simp [h1])

lemma strCompare_self (x : String) : strCompare x x = 0 := by
  simp [strCompare, jsStrLt, jsStrLtL_irrefl]

lemma strCompare_nonpos (a b : String) : strCompare a b ≤ 0 ↔ jsStrLt b a = false := by
  unfold strCompare
  by_cases h : jsStrLt b a = true
  · rw [if_pos h]
    simp [h]
  · have h' : jsStrLt b a = false := by simpa using h
    rw [if_neg h]
    by_cases h2 : jsStrLt a b = true
    · rw [if_pos h2]
      simp [h']
    · rw [if_neg h2]
      simp [h']

lemma strCompare_nonneg (a b : String) : 0 ≤ strCompare a b ↔ jsStrLt a b = false := by
  unfold strCompare
  by_cases h : jsStrLt a b = true
  · have h2 : jsStrLt b a = false := jsStrLtL_asymm a.data b.data h
    rw [if_neg (by simp [h2]), if_pos h]
    simp [h]
  · have h' : jsStrLt a b = false := by simpa using h
    by_cases h2 : jsStrLt b a = true
    · rw [if_pos h2]
      simp [h']
    · rw [if_neg h2, if_neg h]
      simp [h']

lemma strCompare_flip (a b : String) : strCompare a b ≤ 0 ↔ 0 ≤ strCompare b a :=
  (strCompare_nonpos a b).trans (strCompare_nonneg b a).symm

lemma strCompare_total (a b : String) : strCompare a b ≤ 0 ∨ strCompare b a ≤ 0 := by
  by_cases h : jsStrLt b a = true
  · exact Or.inr ((strCompare_nonpos b a).mpr (jsStrLtL_asymm b.data a.data h))
  · exact Or.inl ((strCompare_nonpos a b).mpr (by simpa using h))

lemma strCompare_trans (a b c : String) (h1 : strCompare a b ≤ 0)
    (h2 : strCompare b c ≤ 0) : strCompare a c ≤ 0 := by
  rw [strCompare_nonpos] at h1 h2 ⊢
  exact jsStrLtL_not_lt_trans a.data b.data c.data h1 h2

lemma jsGtN_eq_jsLtN_swap (a b : JSNum) : jsGtN a b = jsLtN b a := by
  cases a <;> cases b <;> rfl

lemma numCompare_self (x : JSNum) : numCompare x x = 0 := by
  cases x <;> simp [numCompare, jsGtN, jsLtN, lt_irrefl]

lemma jsGtN_asymm (a b : JSNum) (h : jsGtN a b = true) : jsGtN b a = false := by
  cases a with
  | nan => simp [jsGtN] at h
  | num p =>
    cases b with
    | nan => simp [jsGtN] at h
    | num q =>
      simp only [jsGtN, decide_eq_true_eq] at h
      simp [jsGtN, asymm h]

lemma numCompare_nonpos (a b : JSNum) : numCompare a b ≤ 0 ↔ jsGtN a b = false := by
  unfold numCompare
  by_cases h : jsGtN a b = true
  · rw [if_pos h]
    simp [h]
  · have h' : jsGtN a b = false := by simpa using h
    rw [if_neg h]
    by_cases h2 : jsLtN a b = true
    · rw [if_pos h2]
      simp [h']
    · rw [if_neg h2]
      simp [h']

lemma numCompare_nonneg (a b : JSNum) : 0 ≤ numCompare a b ↔ jsLtN a b = false := by
  unfold numCompare
  by_cases h : jsLtN a b = true
  · have h2 : jsGtN a b = false :=
      jsGtN_asymm b a (by rw [jsGtN_eq_jsLtN_swap]; exact h)
    rw [if_neg (by simp [h2]), if_pos h]
    simp [h]
  · have h' : jsLtN a b = false := by simpa using h
    by_cases h2 : jsGtN a b = true
    · rw [if_pos h2]
      simp [h']
    · rw [if_neg h2, if_neg h]
      simp [h']

lemma numCompare_flip (a b : JSNum) : numCompare a b ≤ 0 ↔ 0 ≤ numCompare b a := by
  rw [numCompare_nonpos, numCompare_nonneg, jsGtN_eq_jsLtN_swap]

lemma numCompare_total (a b : JSNum) : numCompare a b ≤ 0 ∨ numCompare b a ≤ 0 := by
  by_cases h : jsGtN a b = true
  · exact Or.inr ((numCompare_nonpos b a).mpr (jsGtN_asymm a b h))
  · exact Or.inl ((numCompare_nonpos a b).mpr (by simpa using h))

lemma numCompare_num_nonpos (p q : ℚ) : numCompare (.num p) (.num q) ≤ 0 ↔ p ≤ q := by
  rw [numCompare_nonpos]
  simp [jsGtN, not_lt]

lemma numCompare_num_trans (p q r : ℚ) (h1 : numCompare (.num p) (.num q) ≤ 0)
    (h2 : numCompare (.num q) (.num r) ≤ 0) : numCompare (.num p) (.num r) ≤ 0 := by
  rw [numCompare_num_nonpos] at h1 h2 ⊢
  linarith

lemma rowCompare_self (dt : String) (ci : ℤ) (a : Row) : rowCompare dt ci a a = 0 := by
  unfold rowCompare
  by_cases hdt : dt = "number"
  · rw [if_pos hdt]
    exact numCompare_self _
  · rw [if_neg hdt]
    exact strCompare_self _

lemma rowCompare_total (dt : String) (ci : ℤ) (a b : Row) :
    rowCompare dt ci a b ≤ 0 ∨ rowCompare dt ci b a ≤ 0 := by
  unfold rowCompare
  by_cases hdt : dt = "number"
  · rw [if_pos hdt, if_pos hdt]
    exact numCompare_total _ _
  · rw [if_neg hdt, if_neg hdt]
    exact strCompare_total _ _

lemma rowCompare_flip (dt : String) (ci : ℤ) (a b : Row) :
    rowCompare dt ci a b ≤ 0 ↔ 0 ≤ rowCompare dt ci b a := by
  unfold rowCompare
  by_cases hdt : dt = "number"
  · rw [if_pos hdt, if_pos hdt]
    exact numCompare_flip _ _
  · rw [if_neg hdt, if_neg hdt]
    exact strCompare_flip _ _

lemma rowCompare_trans (dt : String) (ci : ℤ) (a b c : Row)
    (hnum : dt = "number" →
      cellTs a ci ≠ JSNum.nan ∧ cellTs b ci ≠ JSNum.nan ∧ cellTs c ci ≠ JSNum.nan)
    (h1 : rowCompare dt ci a b ≤ 0) (h2 : rowCompare dt ci b c ≤ 0) :
    rowCompare dt ci a c ≤ 0 := by
  unfold rowCompare at h1 h2 ⊢
  by_cases hdt : dt = "number"
  · rw [if_pos hdt] at h1 h2 ⊢
    obtain ⟨ha, hb, hc⟩ := hnum hdt
    cases hA : cellTs a ci with
    | nan => exact absurd hA ha
    | num p =>
      cases hB : cellTs b ci with
      | nan => exact absurd hB hb
      | num q =>
        cases hC : cellTs c ci with
        | nan => exact absurd hC hc
        | num r =>
          rw [hA, hB] at h1
          rw [hB, hC] at h2
          exact numCompare_num_trans p q r h1 h2
  · rw [if_neg hdt] at h1 h2 ⊢
    exact strCompare_trans _ _ _ h1 h2

lemma rowCompare_zero_symm (dt : String) (ci : ℤ) (a b : Row)
    (h : rowCompare dt ci a b = 0) : rowCompare dt ci b a = 0 := by
  have h1 : 0 ≤ rowCompare dt ci b a := (rowCompare_flip dt ci a b).mp (le_of_eq h)
  have h2 : rowCompare dt ci b a ≤ 0 := (rowCompare_flip dt ci b a).mpr (ge_of_eq h)
  exact le_antisymm h2 h1

lemma dirCompare_asc_le (cmp : Row → Row → Int) (a b : Row) :
    (dirCompare "asc" cmp a b ≤ 0) ↔ cmp a b ≤ 0 := by
  rw [dirCompare, if_pos rfl]

lemma dirCompare_desc_le (cmp : Row → Row → Int) (a b : Row) :
    (dirCompare "desc" cmp a b ≤ 0) ↔ 0 ≤ cmp a b := by
  rw [dirCompare, if_neg (by decide)]
  exact neg_nonpos

lemma sortTable_sort_eq (ci : ℤ) (dt : String) (st : TableState) :
    (sortTable ci dt st).sort = updateSortDirection st.sort ci := rfl

lemma sortTable_tbody_of_dir (ci : ℤ) (dt : String) (st : TableState) (d : String)
    (hd : (updateSortDirection st.sort ci).currentSortDirection = d)
    (hnd : st.tbody.Nodup) :
    (sortTable ci dt st).tbody =
      List.insertionSort (fun a b => dirCompare d (rowCompare dt ci) a b ≤ 0) st.tbody := by
  subst hd
  exact foldl_insertionSort_eq _ st.tbody hnd

lemma pairwise_imp_of_mem {α : Type} {R S : α → α → Prop} :
    ∀ {l : List α}, (∀ a ∈ l, ∀ b ∈ l, R a b → S a b) → l.Pairwise R → l.Pairwise S
  | [], _, _ => List.Pairwise.nil
  | a :: as, himp, hp =>
    List.Pairwise.cons
      (fun b hb => himp a (List.mem_cons_self a as) b (List.mem_cons_of_mem a hb)
        ((List.pairwise_cons.mp hp).1 b hb))
      (pairwise_imp_of_mem
        (fun x hx y hy => himp x (List.mem_cons_of_mem a hx) y (List.mem_cons_of_mem a hy))
        (List.pairwise_cons.mp hp).2)

/-- After any call of the direction-determination step, the remembered column
is exactly the clicked one (in the same-column branch it was already equal). -/
lemma updateSortDirection_column (s : SortState) (ci : ℤ) :
    (updateSortDirection s ci).currentSortColumn = ci := by
  unfold updateSortDirection
  by_cases h : s.currentSortColumn = ci
  · rw [if_pos h]
    exact h
  · rw [if_neg h]

/-- After any call of the direction-determination step, the direction is one
of the two literals the source ever writes. -/
lemma updateSortDirection_direction (s : SortState) (ci : ℤ) :
    (updateSortDirection s ci).currentSortDirection = "asc" ∨
    (updateSortDirection s ci).currentSortDirection = "desc" := by
  unfold updateSortDirection
  by_cases h : s.currentSortColumn = ci
  · rw [if_pos h]
    by_cases h2 : s.currentSortDirection = "asc"
    · exact Or.inr (by simp [h2])
    · exact Or.inl (by simp [h2])
  · rw [if_neg h]
    exact Or.inl rfl

lemma updateSortDirection_dir_of_same (s : SortState) (ci : ℤ)
    (h : s.currentSortColumn = ci) :
    (updateSortDirection s ci).currentSortDirection =
      (if s.currentSortDirection = "asc" then "desc" else "asc") := by
  rw [updateSortDirection, if_pos h]

lemma rowCompare_ge_trans (dt : String) (ci : ℤ) (x y z : Row)
    (hnum3 : dt = "number" →
      cellTs x ci ≠ JSNum.nan ∧ cellTs y ci ≠ JSNum.nan ∧ cellTs z ci ≠ JSNum.nan)
    (h1 : 0 ≤ rowCompare dt ci x y) (h2 : 0 ≤ rowCompare dt ci y z) :
    0 ≤ rowCompare dt ci x z := by
  have h1le : rowCompare dt ci y x ≤ 0 := (rowCompare_flip dt ci y x).mpr h1
  have h2le : rowCompare dt ci z y ≤ 0 := (rowCompare_flip dt ci z y).mpr h2
  have h3 : rowCompare dt ci z x ≤ 0 := rowCompare_trans dt ci z y x
    (fun hdt => ⟨(hnum3 hdt).2.2, (hnum3 hdt).2.1, (hnum3 hdt).1⟩) h2le h1le
  exact (rowCompare_flip dt ci z x).mp h3

/-- The heart of the toggle behaviour: stable-sorting by a relation `r`, then
by a pointwise-opposite relation `s`, reverses the first result, and sorting
by `r` again restores it — under totality, transitivity and antisymmetry of
the relations on the rows at hand. -/
lemma insertionSort_reverse_restore {α : Type} (r s : α → α → Prop)
    [DecidableRel r] [DecidableRel s] (t : List α)
    (hrs : ∀ a ∈ t, ∀ b ∈ t, (r a b ↔ s b a))
    (htot : ∀ a ∈ t, ∀ b ∈ t, r a b ∨ r b a)
    (htr : ∀ x ∈ t, ∀ y ∈ t, ∀ z ∈ t, r x y → r y z → r x z)
    (hts : ∀ x ∈ t, ∀ y ∈ t, ∀ z ∈ t, s x y → s y z → s x z)
    (hanti : ∀ a ∈ t, ∀ b ∈ t, r a b → r b a → a = b) :
    List.insertionSort s (List.insertionSort r t) = (List.insertionSort r t).reverse ∧
    List.insertionSort r (List.insertionSort s (List.insertionSort r t)) =
      List.insertionSort r t := by
  have hAperm : (List.insertionSort r t).Perm t := List.perm_insertionSort r t
  have hAmem : ∀ x ∈ List.insertionSort r t, x ∈ t := fun x hx => hAperm.mem_iff.mp hx
  have pA : (List.insertionSort r t).Pairwise r := pairwise_insertionSort r t htot htr
  have htotS : ∀ a ∈ t, ∀ b ∈ t, s a b ∨ s b a := by
    intro a ha b hb
    rcases htot a ha b hb with h | h
    · exact Or.inr ((hrs a ha b hb).mp h)
    · exact Or.inl ((hrs b hb a ha).mp h)
  have hantiS : ∀ a ∈ t, ∀ b ∈ t, s a b → s b a → a = b := by
    intro a ha b hb h1 h2
    exact hanti a ha b hb ((hrs a ha b hb).mpr h2) ((hrs b hb a ha).mpr h1)
  have hBperm : (List.insertionSort s (List.insertionSort r t)).Perm
      (List.insertionSort r t) := List.perm_insertionSort s _
  have hBmem : ∀ x ∈ List.insertionSort s (List.insertionSort r t), x ∈ t :=
    fun x hx => hAmem x (hBperm.mem_iff.mp hx)
  have pB : (List.insertionSort s (List.insertionSort r t)).Pairwise s :=
    pairwise_insertionSort s _
      (fun a ha b hb => htotS a (hAmem a ha) b (hAmem b hb))
      (fun x hx y hy z hz => hts x (hAmem x hx) y (hAmem y hy) z (hAmem z hz))
  have goal1 : List.insertionSort s (List.insertionSort r t) =
      (List.insertionSort r t).reverse := by
    apply sorted_perm_eq s
    · exact hBperm.trans (List.reverse_perm _).symm
    · exact pB
    · rw [List.pairwise_reverse]
      refine pairwise_imp_of_mem ?_ pA
      intro a ha b hb hr
      exact (hrs a (hAmem a ha) b (hAmem b hb)).mp hr
    · intro a ha b hb h1 h2
      exact hantiS a (hBmem a ha) b (hBmem b hb) h1 h2
  refine ⟨goal1, ?_⟩
  have hCperm := List.perm_insertionSort r (List.insertionSort s (List.insertionSort r t))
  have pC : (List.insertionSort r
      (List.insertionSort s (List.insertionSort r t))).Pairwise r :=
    pairwise_insertionSort r _
      (fun a ha b hb => htot a (hBmem a ha) b (hBmem b hb))
      (fun x hx y hy z hz => htr x (hBmem x hx) y (hBmem y hy) z (hBmem z hz))
  apply sorted_perm_eq r
  · exact hCperm.trans hBperm
  · exact pC
  · exact pA
  · intro a ha b hb h1 h2
    exact hanti a (hBmem a (hCperm.mem_iff.mp ha)) b (hBmem b (hCperm.mem_iff.mp hb)) h1 h2

/-- Counterexample to C4 as stated: on a table whose two rows carry the same
cell text (a comparator tie), the second identical `sortTable` call does not
reverse the first call's row order — stability keeps tied rows in place. -/
theorem sortTable_double_toggle_c4_counterexample :
    (sortTable 0 "string"
        (sortTable 0 "string"
          ⟨initialSortState, [⟨0, ["x"], []⟩, ⟨1, ["x"], []⟩]⟩)).tbody ≠
      ((sortTable 0 "string"
        ⟨initialSortState, [⟨0, ["x"], []⟩, ⟨1, ["x"], []⟩]⟩).tbody).reverse := by
  decide

/-- C4 amended: provided the column's extracted sort keys are pairwise
untied on the rows — and the inputs lie where the embedding is exact: in
`number` mode no key parses to NaN, in string mode the column's cell texts
are ASCII (on ASCII text the embedded `trim()`, `toLowerCase()` and
code-unit comparison coincide exactly with the JavaScript string pipeline) —
calling `sortTable` twice in a row with the same arguments, from any prior
sort state, yields the row order of the first call reversed, and a third
identical call restores the first call's order.  With tied keys the stable
sort keeps tied rows in their relative order in both directions, so the
second order need not be the exact reverse: see the counterexample. -/
theorem sortTable_double_toggle_c4_amended (ci : ℤ) (dt : String) (st : TableState)
    (hties : st.tbody.Pairwise (fun a b => rowCompare dt ci a b ≠ 0))
    (hnum : dt = "number" → ∀ r ∈ st.tbody, cellTs r ci ≠ JSNum.nan)
    (_hascii : dt ≠ "number" → ∀ r ∈ st.tbody, ∀ c ∈ (cellText r ci).data, c.toNat < 128) :
    (sortTable ci dt (sortTable ci dt st)).tbody =
      ((sortTable ci dt st).tbody).reverse ∧
    (sortTable ci dt (sortTable ci dt (sortTable ci dt st))).tbody =
      (sortTable ci dt st).tbody := by
  have hnd : st.tbody.Nodup := by
    refine List.Pairwise.imp ?_ hties
    intro a b hab heq
    exact hab (by rw [heq]; exact rowCompare_self dt ci b)
  have hanti0 : ∀ a ∈ st.tbody, ∀ b ∈ st.tbody, rowCompare dt ci a b = 0 → a = b := by
    intro a ha b hb h0
    by_contra hne
    have hsym : Symmetric (fun x y : Row => rowCompare dt ci x y ≠ 0) := by
      intro x y hxy h
      exact hxy (rowCompare_zero_symm dt ci y x h)
    exact hties.forall hsym ha hb hne h0
  have hcol1 : (sortTable ci dt st).sort.currentSortColumn = ci := by
    rw [sortTable_sort_eq]
    exact updateSortDirection_column st.sort ci
  have hcol2 : (sortTable ci dt (sortTable ci dt st)).sort.currentSortColumn = ci := by
    rw [sortTable_sort_eq]
    exact updateSortDirection_column (sortTable ci dt st).sort ci
  -- property bundles for the ascending and descending relations on the rows
  have hrsAD : ∀ a ∈ st.tbody, ∀ b ∈ st.tbody,
      (dirCompare "asc" (rowCompare dt ci) a b ≤ 0 ↔
        dirCompare "desc" (rowCompare dt ci) b a ≤ 0) := by
    intro a _ b _
    rw [dirCompare_asc_le, dirCompare_desc_le]
    exact rowCompare_flip dt ci a b
  have hrsDA : ∀ a ∈ st.tbody, ∀ b ∈ st.tbody,
      (dirCompare "desc" (rowCompare dt ci) a b ≤ 0 ↔
        dirCompare "asc" (rowCompare dt ci) b a ≤ 0) := by
    intro a _ b _
    rw [dirCompare_desc_le, dirCompare_asc_le]
    exact (rowCompare_flip dt ci b a).symm
  have htotA : ∀ a ∈ st.tbody, ∀ b ∈ st.tbody,
      (dirCompare "asc" (rowCompare dt ci) a b ≤ 0 ∨
        dirCompare "asc" (rowCompare dt ci) b a ≤ 0) := by
    intro a _ b _
    rcases rowCompare_total dt ci a b with h | h
    · exact Or.inl ((dirCompare_asc_le _ a b).mpr h)
    · exact Or.inr ((dirCompare_asc_le _ b a).mpr h)
  have htotD : ∀ a ∈ st.tbody, ∀ b ∈ st.tbody,
      (dirCompare "desc" (rowCompare dt ci) a b ≤ 0 ∨
        dirCompare "desc" (rowCompare dt ci) b a ≤ 0) := by
    intro a _ b _
    rcases rowCompare_total dt ci a b with h | h
    · exact Or.inr ((dirCompare_desc_le _ b a).mpr ((rowCompare_flip dt ci a b).mp h))
    · exact Or.inl ((dirCompare_desc_le _ a b).mpr ((rowCompare_flip dt ci b a).mp h))
  have htrA : ∀ x ∈ st.tbody, ∀ y ∈ st.tbody, ∀ z ∈ st.tbody,
      dirCompare "asc" (rowCompare dt ci) x y ≤ 0 →
      dirCompare "asc" (rowCompare dt ci) y z ≤ 0 →
      dirCompare "asc" (rowCompare dt ci) x z ≤ 0 := by
    intro x hx y hy z hz h1 h2
    rw [dirCompare_asc_le] at h1 h2 ⊢
    exact rowCompare_trans dt ci x y z
      (fun hdt => ⟨hnum hdt x hx, hnum hdt y hy, hnum hdt z hz⟩) h1 h2
  have htrD : ∀ x ∈ st.tbody, ∀ y ∈ st.tbody, ∀ z ∈ st.tbody,
      dirCompare "desc" (rowCompare dt ci) x y ≤ 0 →
      dirCompare "desc" (rowCompare dt ci) y z ≤ 0 →
      dirCompare "desc" (rowCompare dt ci) x z ≤ 0 := by
    intro x hx y hy z hz h1 h2
    rw [dirCompare_desc_le] at h1 h2 ⊢
    exact rowCompare_ge_trans dt ci x y z
      (fun hdt => ⟨hnum hdt x hx, hnum hdt y hy, hnum hdt z hz⟩) h1 h2
  have hantiA : ∀ a ∈ st.tbody, ∀ b ∈ st.tbody,
      dirCompare "asc" (rowCompare dt ci) a b ≤ 0 →
      dirCompare "asc" (rowCompare dt ci) b a ≤ 0 → a = b := by
    intro a ha b hb h1 h2
    rw [dirCompare_asc_le] at h1 h2
    exact hanti0 a ha b hb (le_antisymm h1 ((rowCompare_flip dt ci b a).mp h2))
  have hantiD : ∀ a ∈ st.tbody, ∀ b ∈ st.tbody,
      dirCompare "desc" (rowCompare dt ci) a b ≤ 0 →
      dirCompare "desc" (rowCompare dt ci) b a ≤ 0 → a = b := by
    intro a ha b hb h1 h2
    rw [dirCompare_desc_le] at h1 h2
    exact hanti0 a ha b hb (le_antisymm ((rowCompare_flip dt ci a b).mpr h2) h1)
  -- the first call's direction is asc or desc, whatever the starting state
  rcases updateSortDirection_direction st.sort ci with hd1 | hd1
  · -- first call ascending, second descending, third ascending
    have hA : (sortTable ci dt st).tbody =
        List.insertionSort (fun a b => dirCompare "asc" (rowCompare dt ci) a b ≤ 0)
          st.tbody :=
      sortTable_tbody_of_dir ci dt st "asc" hd1 hnd
    have hAnd : ((sortTable ci dt st).tbody).Nodup := by
      rw [hA]
      exact (List.Perm.nodup_iff (List.perm_insertionSort _ _)).mpr hnd
    have hdir2 : (updateSortDirection (sortTable ci dt st).sort ci).currentSortDirection =
        "desc" := by
      rw [updateSortDirection_dir_of_same _ ci hcol1]
      rw [show (sortTable ci dt st).sort.currentSortDirection = "asc" from by
        rw [sortTable_sort_eq]; exact hd1]
      decide
    have hB : (sortTable ci dt (sortTable ci dt st)).tbody =
        List.insertionSort (fun a b => dirCompare "desc" (rowCompare dt ci) a b ≤ 0)
          (sortTable ci dt st).tbody :=
      sortTable_tbody_of_dir ci dt (sortTable ci dt st) "desc" hdir2 hAnd
    have hBnd : ((sortTable ci dt (sortTable ci dt st)).tbody).Nodup := by
      rw [hB]
      exact (List.Perm.nodup_iff (List.perm_insertionSort _ _)).mpr hAnd
    have hdir3 : (updateSortDirection
        (sortTable ci dt (sortTable ci dt st)).sort ci).currentSortDirection = "asc" := by
      rw [updateSortDirection_dir_of_same _ ci hcol2]
      rw [show (sortTable ci dt (sortTable ci dt st)).sort.currentSortDirection = "desc" from by
        rw [sortTable_sort_eq]; exact hdir2]
      decide
    have hC : (sortTable ci dt (sortTable ci dt (sortTable ci dt st))).tbody =
        List.insertionSort (fun a b => dirCompare "asc" (rowCompare dt ci) a b ≤ 0)
          (sortTable ci dt (sortTable ci dt st)).tbody :=
      sortTable_tbody_of_dir ci dt (sortTable ci dt (sortTable ci dt st)) "asc" hdir3 hBnd
    have hcore := insertionSort_reverse_restore
      (fun a b => dirCompare "asc" (rowCompare dt ci) a b ≤ 0)
      (fun a b => dirCompare "desc" (rowCompare dt ci) a b ≤ 0)
      st.tbody hrsAD htotA htrA htrD hantiA
    constructor
    · rw [hB, hA]
      exact hcore.1
    · rw [hC, hB, hA]
      exact hcore.2
  · -- first call descending, second ascending, third descending
    have hA : (sortTable ci dt st).tbody =
        List.insertionSort (fun a b => dirCompare "desc" (rowCompare dt ci) a b ≤ 0)
          st.tbody :=
      sortTable_tbody_of_dir ci dt st "desc" hd1 hnd
    have hAnd : ((sortTable ci dt st).tbody).Nodup := by
      rw [hA]
      exact (List.Perm.nodup_iff (List.perm_insertionSort _ _)).mpr hnd
    have hdir2 : (updateSortDirection (sortTable ci dt st).sort ci).currentSortDirection =
        "asc" := by
      rw [updateSortDirection_dir_of_same _ ci hcol1]
      rw [show (sortTable ci dt st).sort.currentSortDirection = "desc" from by
        rw [sortTable_sort_eq]; exact hd1]
      decide
    have hB : (sortTable ci dt (sortTable ci dt st)).tbody =
        List.insertionSort (fun a b => dirCompare "asc" (rowCompare dt ci) a b ≤ 0)
          (sortTable ci dt st).tbody :=
      sortTable_tbody_of_dir ci dt (sortTable ci dt st) "asc" hdir2 hAnd
    have hBnd : ((sortTable ci dt (sortTable ci dt st)).tbody).Nodup := by
      rw [hB]
      exact (List.Perm.nodup_iff (List.perm_insertionSort _ _)).mpr hAnd
    have hdir3 : (updateSortDirection
        (sortTable ci dt (sortTable ci dt st)).sort ci).currentSortDirection = "desc" := by
      rw [updateSortDirection_dir_of_same _ ci hcol2]
      rw [show (sortTable ci dt (sortTable ci dt st)).sort.currentSortDirection = "asc" from by
        rw [sortTable_sort_eq]; exact hdir2]
      decide
    have hC : (sortTable ci dt (sortTable ci dt (sortTable ci dt st))).tbody =
        List.insertionSort (fun a b => dirCompare "desc" (rowCompare dt ci) a b ≤ 0)
          (sortTable ci dt (sortTable ci dt st)).tbody :=
      sortTable_tbody_of_dir ci dt (sortTable ci dt (sortTable ci dt st)) "desc" hdir3 hBnd
    have hcore := insertionSort_reverse_restore
      (fun a b => dirCompare "desc" (rowCompare dt ci) a b ≤ 0)
      (fun a b => dirCompare "asc" (rowCompare dt ci) a b ≤ 0)
      st.tbody hrsDA htotD htrD htrA hantiD
    constructor
    · rw [hB, hA]
      exact hcore.1
    · rw [hC, hB, hA]
      exact hcore.2

/-- Witness for the amended C4 on the spec's own three-row example
(`beta`, `alpha`, `gamma` — pairwise distinct ASCII string keys). -/
theorem sortTable_double_toggle_c4_witness :
    (sortTable 0 "string" (sortTable 0 "string"
      ⟨initialSortState, [⟨0, ["beta"], []⟩, ⟨1, ["alpha"], []⟩, ⟨2, ["gamma"], []⟩]⟩)).tbody =
      ((sortTable 0 "string"
        ⟨initialSortState, [⟨0, ["beta"], []⟩, ⟨1, ["alpha"], []⟩, ⟨2, ["gamma"], []⟩]⟩).tbody).reverse ∧
    (sortTable 0 "string" (sortTable 0 "string" (sortTable 0 "string"
      ⟨initialSortState, [⟨0, ["beta"], []⟩, ⟨1, ["alpha"], []⟩, ⟨2, ["gamma"], []⟩]⟩))).tbody =
      (sortTable 0 "string"
        ⟨initialSortState, [⟨0, ["beta"], []⟩, ⟨1, ["alpha"], []⟩, ⟨2, ["gamma"], []⟩]⟩).tbody :=
  sortTable_double_toggle_c4_amended 0 "string"
    ⟨initialSortState, [⟨0, ["beta"], []⟩, ⟨1, ["alpha"], []⟩, ⟨2, ["gamma"], []⟩]⟩
    (by decide) (by decide) (by decide)
